import Mathlib

/-!
Shallow embedding of the libdns acmedns provider (Go).

The repository has two near-duplicate implementations of the provider; the
resource-record-based variant (the one that also implements SetRecords and
GetRecords, and sets the Content-Type header) is the canonical one and is
embedded under the source names below.  The older flat-field variant differs
in how the lookup domain is computed (manual byte slicing that can panic);
its account selection is embedded separately as selectAccountLegacy.

Modelling conventions:
  * Go strings are Lean String values; byte-level operations of the source
    are modelled at character level (all string constants involved are ASCII,
    where the two coincide).
  * Go map[string]DomainConfig is an association list with unique keys;
    a nil map versus a non-nil map is Option.
  * The HTTP layer is external to the repository.  It is abstracted as an
    HttpEnv: parseURLFails says whether Go's url.Parse (hence
    http.NewRequest) rejects a URL string (for example it rejects
    "://auth.example/update": missing protocol scheme), and respond gives
    the outcome of client.Do on a request (none = transport-level failure,
    some s = response with HTTP status s).
  * A Go runtime panic is the GoOutcome.panic / GoResult.panic value;
    returning (value, error) is the remaining constructors.
  * json.Marshal of a map[string]string cannot fail and serialises the two
    keys in sorted order ("subdomain" < "txt"); the request body is embedded
    structurally as an UpdatePayload record.
-/

/-- One entry of the Provider.Configs table (Go struct DomainConfig).
The fullDomain field is carried but never read by the provider logic. -/
structure DomainConfig where
  username : String
  password : String
  subdomain : String
  fullDomain : String
  serverURL : String
deriving DecidableEq, Repr

/-- Resolved credentials (Go struct account). -/
structure Account where
  username : String
  password : String
  subdomain : String
  serverURL : String
deriving DecidableEq, Repr

/-- The provider configuration (Go struct Provider).  configs = none models a
nil Configs map; some table models a non-nil map (possibly empty). -/
structure Provider where
  configs : Option (List (String × DomainConfig))
  username : String
  password : String
  subdomain : String
  serverURL : String

/-- The distinct error values the provider can return, one constructor per
fmt.Errorf site.  emptyField f models the message "f cannot be empty";
configNotFound d models "Config for domain d not found"; badStatus c models
"Updating ACME-DNS record resulted in response code c"; transport models the
wrapped client.Do error; unsupportedType models "joohoi_acme_dns provider
only supports adding TXT records"; notSupported models "acmedns provider
does not support getting records". -/
inductive ProviderError where
  | unsupportedType
  | configNotFound (domain : String)
  | emptyField (field : String)
  | transport
  | badStatus (code : Nat)
  | notSupported
deriving DecidableEq, Repr

/-- The JSON object json.Marshal produces for the update request body:
keys "subdomain" and "txt" in Go's sorted-key order. -/
structure UpdatePayload where
  subdomain : String
  txt : String
deriving DecidableEq, Repr

/-- An outbound HTTP request as built by updateTxtValue. -/
structure HttpRequest where
  method : String
  url : String
  headers : List (String × String)
  body : UpdatePayload
deriving DecidableEq, Repr

/-- The external HTTP layer (Go net/url and net/http, outside this
repository).  parseURLFails u is true when Go's http.NewRequest("POST", u, _)
returns an error (url.Parse rejects u); respond r is none on a
transport-level failure of client.Do and some s on a response with status s. -/
structure HttpEnv where
  parseURLFails : String → Bool
  respond : HttpRequest → Option Nat

/-- Outcome of a Go call that may panic, return an error, or return a value. -/
inductive GoOutcome (ε α : Type) where
  | panic
  | error (e : ε)
  | ok (a : α)
deriving DecidableEq, Repr

/-- Outcome of a batch method returning ([]libdns.Record, error): either a
runtime panic, or a returned record list together with an optional error. -/
inductive GoResult (α : Type) where
  | panic
  | done (val : α) (err : Option ProviderError)
deriving DecidableEq, Repr

/-- A DNS resource record (libdns.RR: Type, Name, Data, TTL).  The provider
reads only type, name and data; ttl is ignored. -/
structure RR where
  type : String
  name : String
  data : String
  ttl : Nat
deriving DecidableEq, Repr

/-- The package-level constant acmePrefix = "_acme-challenge.". -/
def acmeLabel : String := "_acme-challenge."

/-- strings.Trim(s, ".") on the character list: drop '.' from both ends. -/
def trimDotsL (l : List Char) : List Char :=
  ((l.dropWhile (· == '.')).reverse.dropWhile (· == '.')).reverse

/-- strings.Trim(s, ".") (Go strings package). -/
def goTrimDots (s : String) : String := ⟨trimDotsL s.data⟩

/-- strings.TrimPrefix(s, "_acme-challenge.") on the character list: remove
the leading label when present, otherwise leave the list unchanged. -/
def stripAcmeLabel (l : List Char) : List Char :=
  if l.take acmeLabel.data.length = acmeLabel.data then l.drop acmeLabel.data.length else l

/-- libdns.AbsoluteName(name, zone) from the libdns dependency: join name and
zone into a fully-qualified name (zone empty: trim dots from name; name empty
or "@": the zone; otherwise name, a dot unless name already ends in one, then
zone). -/
def absoluteName (name zone : String) : String :=
  if zone = "" then goTrimDots name
  else if name = "" ∨ name = "@" then zone
  else if name.data.getLast? = some '.' then name ++ zone
  else name ++ "." ++ zone

/-- The lookup key selectAccount computes when a Configs table is present:
domain := libdns.AbsoluteName(name, zone); strings.Trim(domain, ".");
strings.TrimPrefix(domain, acmePrefix). -/
def codeLookupKey (name zone : String) : String :=
  ⟨stripAcmeLabel (trimDotsL (absoluteName name zone).data)⟩

/-- Modelled from the spec: trim_trailing_dot, stripping exactly one trailing
dot when one is present.  Used only to state the spec's described key
computation, to be compared with codeLookupKey. -/
def trimOneTrailingDot (s : String) : String :=
  if s.data.getLast? = some '.' then ⟨s.data.dropLast⟩ else s

/-- Modelled from the spec: the lookup key described by the specification,
concat(name, ".", zone), then one trailing dot stripped, then at most one
occurrence of the "_acme-challenge." label stripped at the start. -/
def specLookupKey (name zone : String) : String :=
  ⟨stripAcmeLabel (trimOneTrailingDot (name ++ "." ++ zone)).data⟩

/-- Go map lookup config, found := p.Configs[domain]. -/
def lookupConfig (tbl : List (String × DomainConfig)) (k : String) : Option DomainConfig :=
  (tbl.find? (fun kv => kv.1 == k)).map (·.2)

/-- Provider.selectAccount (canonical variant).  With a non-nil Configs table
it looks up the computed domain key; otherwise it validates the four static
fields in order and builds the account from them. -/
def selectAccount (p : Provider) (zone name : String) : Except ProviderError Account :=
  match p.configs with
  | some tbl =>
    match lookupConfig tbl (codeLookupKey name zone) with
    | some c => .ok ⟨c.username, c.password, c.subdomain, c.serverURL⟩
    | none => .error (.configNotFound (codeLookupKey name zone))
  | none =>
    if p.username = "" then .error (.emptyField "Username")
    else if p.password = "" then .error (.emptyField "Password")
    else if p.subdomain = "" then .error (.emptyField "Subdomain")
    else if p.serverURL = "" then .error (.emptyField "ServerURL")
    else .ok ⟨p.username, p.password, p.subdomain, p.serverURL⟩

/-- Provider.selectAccount of the older flat-field variant.  It computes
domain := name + "." + zone, strips one trailing dot by slicing, and then
compares domain[:len(acmePrefix)] with acmePrefix: when the domain is shorter
than the label this slice is out of range and the Go code panics. -/
def selectAccountLegacy (p : Provider) (zone name : String) : GoOutcome ProviderError Account :=
  match p.configs with
  | some tbl =>
    let d := name ++ "." ++ zone
    let d := if d.data.getLast? = some '.' then (⟨d.data.dropLast⟩ : String) else d
    if d.data.length < acmeLabel.data.length then .panic
    else
      let d := (⟨stripAcmeLabel d.data⟩ : String)
      match lookupConfig tbl d with
      | some c => .ok ⟨c.username, c.password, c.subdomain, c.serverURL⟩
      | none => .error (.configNotFound d)
  | none =>
    if p.username = "" then .error (.emptyField "Username")
    else if p.password = "" then .error (.emptyField "Password")
    else if p.subdomain = "" then .error (.emptyField "Subdomain")
    else if p.serverURL = "" then .error (.emptyField "ServerURL")
    else .ok ⟨p.username, p.password, p.subdomain, p.serverURL⟩

/-- The single request updateTxtValue builds: POST serverURL + "/update",
headers X-Api-User, X-Api-Key, Content-Type in the order they are set, and
the marshalled payload as body. -/
def updateRequest (acc : Account) (value : String) : HttpRequest :=
  { method := "POST"
    url := acc.serverURL ++ "/update"
    headers := [("X-Api-User", acc.username), ("X-Api-Key", acc.password),
                ("Content-Type", "application/json")]
    body := ⟨acc.subdomain, value⟩ }

/-- updateTxtValue(acc, value).  Returns the outbound requests it issued
together with its outcome.  json.Marshal cannot fail here; the error returned
by http.NewRequest is ignored by the source, so when URL parsing fails the
subsequent req.Header.Set dereferences a nil request and the call panics
having issued no request.  Otherwise exactly one request is issued; a
client.Do failure is a transport error, a non-200 status is a badStatus
error, and a 200 status is success. -/
def updateTxtValue (env : HttpEnv) (acc : Account) (value : String) :
    List HttpRequest × GoOutcome ProviderError Unit :=
  if env.parseURLFails (acc.serverURL ++ "/update") then ([], .panic)
  else
    match env.respond (updateRequest acc value) with
    | none => ([updateRequest acc value], .error .transport)
    | some status =>
      if status ≠ 200 then ([updateRequest acc value], .error (.badStatus status))
      else ([updateRequest acc value], .ok ())

/-- The body of one iteration of the AppendRecords loop: reject a non-TXT
record, otherwise resolve credentials, otherwise push the value.  Returns the
requests issued for this record and the outcome. -/
def processRecord (env : HttpEnv) (p : Provider) (zone : String) (r : RR) :
    List HttpRequest × GoOutcome ProviderError Unit :=
  if r.type ≠ "TXT" then ([], .error .unsupportedType)
  else
    match selectAccount p zone r.name with
    | .error e => ([], .error e)
    | .ok acc => updateTxtValue env acc r.data

/-- The normalized record appended on success:
libdns.RR with Type "TXT", the record's name and data, and zero TTL. -/
def normRR (r : RR) : RR := ⟨"TXT", r.name, r.data, 0⟩

/-- The AppendRecords loop with its accumulators (appendedRecords and the
requests issued so far). -/
def appendGo (env : HttpEnv) (p : Provider) (zone : String) :
    List RR → List RR → List HttpRequest → List HttpRequest × GoResult (List RR)
  | [], appended, reqs => (reqs, .done appended none)
  | r :: rest, appended, reqs =>
    match (processRecord env p zone r).2 with
    | .panic => (reqs ++ (processRecord env p zone r).1, .panic)
    | .error e => (reqs ++ (processRecord env p zone r).1, .done appended (some e))
    | .ok _ =>
      appendGo env p zone rest (appended ++ [normRR r]) (reqs ++ (processRecord env p zone r).1)

/-- Provider.AppendRecords(ctx, zone, recs).  The context is unused by the
source (it is never passed to the HTTP layer) and is omitted. -/
def AppendRecords (env : HttpEnv) (p : Provider) (zone : String) (recs : List RR) :
    List HttpRequest × GoResult (List RR) :=
  appendGo env p zone recs [] []

/-- Provider.SetRecords(ctx, zone, recs): return p.AppendRecords(ctx, zone, recs). -/
def SetRecords (env : HttpEnv) (p : Provider) (zone : String) (recs : List RR) :
    List HttpRequest × GoResult (List RR) :=
  AppendRecords env p zone recs

/-- Provider.DeleteRecords(ctx, zone, recs): return nil, nil.  The nil record
slice is the empty list; no request is issued. -/
def DeleteRecords (_env : HttpEnv) (_p : Provider) (_zone : String) (_recs : List RR) :
    List HttpRequest × GoResult (List RR) :=
  ([], .done [] none)

/-- Provider.GetRecords(ctx, zone): return nil, fmt.Errorf("acmedns provider
does not support getting records").  No request is issued. -/
def GetRecords (_env : HttpEnv) (_p : Provider) (_zone : String) :
    List HttpRequest × GoResult (List RR) :=
  ([], .done [] (some .notSupported))

/-- The requests issued for a batch of records that all succeed, in order. -/
def batchRequests (env : HttpEnv) (p : Provider) (zone : String) (recs : List RR) :
    List HttpRequest :=
  (recs.map (fun x => (processRecord env p zone x).1)).flatten

/-- A concrete table entry used by the concrete instances below. -/
def cfgDemo : DomainConfig := ⟨"u0", "p0", "s0", "f0.example.org", "https://sv0"⟩

/-- A concrete one-entry account table keyed by "example.com". -/
def tblEx : List (String × DomainConfig) := [("example.com", cfgDemo)]

/-- A provider configured with the table tblEx and empty static fields. -/
def pEx : Provider := ⟨some tblEx, "", "", "", ""⟩

/-- A provider configured with the table tblEx and fully populated static
fields, to observe that the table takes precedence. -/
def pStaticAndTable : Provider := ⟨some tblEx, "su", "sp", "ss", "https://ssv"⟩

/-- An HTTP layer on which URL parsing fails exactly for the URL that
updateTxtValue builds from the server URL "://auth.example" (Go's url.Parse
rejects "://auth.example/update": missing protocol scheme). -/
def envRejectURL : HttpEnv := ⟨fun u => u == "://auth.example/update", fun _ => some 200⟩

/-- Credentials whose server URL makes http.NewRequest fail. -/
def accBadURL : Account := ⟨"u", "p", "sd", "://auth.example"⟩

/-- Flat provider with empty password, for the validation-order instance. -/
def pFlatW : Provider := ⟨none, "u", "", "sd", "https://sv"⟩

/-- Flat provider with all four static fields populated. -/
def pFlat3 : Provider := ⟨none, "u", "p", "sd", "https://sv"⟩

/-- The account pFlat3 resolves to. -/
def acc3 : Account := ⟨"u", "p", "sd", "https://sv"⟩

/-- An HTTP layer that accepts every URL and answers status 400 exactly when
the pushed TXT value is "v2", and 200 otherwise. -/
def envBatch : HttpEnv :=
  ⟨fun _ => false, fun r => if r.body.txt == "v2" then some 400 else some 200⟩

/-- Three TXT records; the second one draws the 400 answer from envBatch. -/
def rA : RR := ⟨"TXT", "a", "v1", 300⟩

/-- Second record of the batch, whose update is answered with status 400. -/
def rB : RR := ⟨"TXT", "b", "v2", 0⟩

/-- Third record of the batch, never reached. -/
def rC : RR := ⟨"TXT", "c", "v3", 0⟩

/-- A non-TXT record. -/
def rBad : RR := ⟨"A", "a", "1.2.3.4", 0⟩

/-- An HTTP layer that accepts every URL and always answers 200. -/
def envAccept : HttpEnv := ⟨fun _ => false, fun _ => some 200⟩

/-- The credentials of the specification's worked update example. -/
def accW8 : Account := ⟨"u", "p", "sd", "https://auth.example"⟩

/-- An HTTP layer on which URL parsing fails exactly for
"://auth2.example/update". -/
def envReject8 : HttpEnv := ⟨fun u => u == "://auth2.example/update", fun _ => some 200⟩

/-- Credentials with the malformed server URL "://auth2.example". -/
def accBad8 : Account := ⟨"u", "p", "sd", "://auth2.example"⟩

/-- Dropping leading dots is the identity when the first character is not a
dot. -/
theorem dropWhile_dot_eq_self (l : List Char) (h : l.head? ≠ some '.') :
    l.dropWhile (· == '.') = l := by
  cases l with
  | nil => rfl
  | cons a t =>
    have ha : (a == '.') = false := by
      refine beq_eq_false_iff_ne.mpr ?_
      intro hh
      exact h (by simp [hh])
    simp [List.dropWhile_cons, ha]

/-- On a list with no leading dot and no two trailing dots, trimming dots
from both ends (strings.Trim) coincides with dropping a single trailing dot
when one is present. -/
theorem trimDotsL_eq_dropOne (l : List Char) (h1 : l.head? ≠ some '.')
    (h2 : l.getLast? = some '.' → l.dropLast.getLast? ≠ some '.') :
    trimDotsL l = if l.getLast? = some '.' then l.dropLast else l := by
  unfold trimDotsL
  rw [dropWhile_dot_eq_self l h1]
  rcases hrev : l.reverse with _ | ⟨c, t⟩
  · have hl : l = [] := List.reverse_eq_nil_iff.mp hrev
    subst hl
    rfl
  · by_cases hc : c = '.'
    · subst hc
      have hlast : l.getLast? = some '.' := by
        rw [← List.head?_reverse, hrev]
        rfl
      have hl : l = t.reverse ++ ['.'] := by
        have h3 := congrArg List.reverse hrev
        simpa using h3
      have hdl : l.dropLast = t.reverse := by
        rw [hl]
        exact List.dropLast_concat ..
      have h5 : t.head? = t.reverse.getLast? := by
        conv_lhs => rw [← List.reverse_reverse t]
        rw [List.head?_reverse]
      have hth : t.head? ≠ some '.' := by
        have h4 := h2 hlast
        rw [hdl] at h4
        rw [h5]
        exact h4
      have hdw : ('.' :: t).dropWhile (· == '.') = t.dropWhile (· == '.') := by
        simp [List.dropWhile_cons]
      rw [hdw, dropWhile_dot_eq_self t hth, if_pos hlast, hdl]
    · have hlast : l.getLast? ≠ some '.' := by
        rw [← List.head?_reverse, hrev]
        simp [hc]
      have hdw : (c :: t).dropWhile (· == '.') = c :: t := by
        simp [List.dropWhile_cons, beq_eq_false_iff_ne.mpr hc]
      rw [hdw, ← hrev, List.reverse_reverse, if_neg hlast]

/-- Running the AppendRecords loop over a block of records that all succeed
appends their normalized forms and their requests to the accumulators. -/
theorem appendGo_ok_block (env : HttpEnv) (p : Provider) (zone : String) :
    ∀ (pre : List RR), (∀ x ∈ pre, (processRecord env p zone x).2 = .ok ()) →
    ∀ (rest : List RR) (appended : List RR) (reqs : List HttpRequest),
      appendGo env p zone (pre ++ rest) appended reqs =
        appendGo env p zone rest (appended ++ pre.map normRR)
          (reqs ++ batchRequests env p zone pre) := by
  intro pre
  induction pre with
  | nil =>
    intro _ rest appended reqs
    simp [batchRequests]
  | cons x xs ih =>
    intro hpre rest appended reqs
    have hx : (processRecord env p zone x).2 = .ok () := hpre x (List.mem_cons_self ..)
    have hxs : ∀ y ∈ xs, (processRecord env p zone y).2 = .ok () :=
      fun y hy => hpre y (List.mem_cons_of_mem _ hy)
    rw [List.cons_append]
    simp only [appendGo, hx]
    rw [ih hxs rest (appended ++ [normRR x]) (reqs ++ (processRecord env p zone x).1)]
    simp [batchRequests, List.append_assoc]

/-- C1 (counterexample): with the table keyed by "example.com", zone
"example.com.." and name "_acme-challenge", the specification's procedure
(concatenate, strip exactly one trailing dot, strip the label once) yields
the key "example.com.", which is not in the table, so the claim predicts a
configuration-not-found failure; the code nevertheless succeeds, because
strings.Trim removes both trailing dots. -/
theorem C1_lookupKey_counterexample :
    specLookupKey "_acme-challenge" "example.com.." = "example.com." ∧
    lookupConfig tblEx "example.com." = none ∧
    selectAccount pEx "example.com.." "_acme-challenge" =
      .ok ⟨"u0", "p0", "s0", "https://sv0"⟩ := by
  refine ⟨by decide, by decide, by rfl⟩

/-- C1 (amended): when a table is configured and the inputs are well-formed
(name nonempty, not "@", without leading or trailing dot, zone nonempty, and
the joined name.zone carrying at most one trailing dot), selectAccount
computes exactly the key described by the specification - concatenation, one
trailing dot stripped, the "_acme-challenge." label stripped at most once -
and resolves by looking that key up in the table. -/
theorem C1_lookupKey_amended (p : Provider) (tbl : List (String × DomainConfig))
    (name zone : String) (hc : p.configs = some tbl)
    (hn1 : name ≠ "") (hn2 : name ≠ "@") (hn3 : name.data.getLast? ≠ some '.')
    (hz : zone ≠ "")
    (hd1 : (name ++ "." ++ zone).data.head? ≠ some '.')
    (hd2 : (name ++ "." ++ zone).data.getLast? = some '.' →
      (name ++ "." ++ zone).data.dropLast.getLast? ≠ some '.') :
    codeLookupKey name zone = specLookupKey name zone ∧
    (∀ c, lookupConfig tbl (specLookupKey name zone) = some c →
      selectAccount p zone name = .ok ⟨c.username, c.password, c.subdomain, c.serverURL⟩) ∧
    (lookupConfig tbl (specLookupKey name zone) = none →
      selectAccount p zone name = .error (.configNotFound (specLookupKey name zone))) := by
  have habs : absoluteName name zone = name ++ "." ++ zone := by
    unfold absoluteName
    rw [if_neg hz, if_neg (not_or.mpr ⟨hn1, hn2⟩), if_neg hn3]
  have hkey : codeLookupKey name zone = specLookupKey name zone := by
    unfold codeLookupKey specLookupKey
    rw [habs]
    congr 1
    rw [trimDotsL_eq_dropOne _ hd1 hd2]
    unfold trimOneTrailingDot
    by_cases hlast : (name ++ "." ++ zone).data.getLast? = some '.'
    · rw [if_pos hlast, if_pos hlast]
    · rw [if_neg hlast, if_neg hlast]
  refine ⟨hkey, ?_, ?_⟩
  · intro c hfound
    simp only [selectAccount, hc, hkey, hfound]
  · intro hmiss
    simp only [selectAccount, hc, hkey, hmiss]

/-- C2: the code contradicts the claim.  updateTxtValue ignores the error
returned by http.NewRequest: on a server URL whose request URL Go's url.Parse
rejects, req is nil, req.Header.Set dereferences it, and the call panics
without issuing any request instead of returning the construction error.
Likewise, the flat-field variant's selectAccount slices domain[:16] and
panics when the computed domain is shorter than "_acme-challenge.". -/
theorem C2_totality_code_bug :
    updateTxtValue envRejectURL accBadURL "abc123" = ([], .panic) ∧
    selectAccountLegacy pEx "a" "b" = .panic := by
  exact ⟨by rfl, by rfl⟩

/-- C3: AppendRecords processes the batch in order and stops at the first
failing record: for any prefix of records that all succeed followed by a
record whose processing fails with error e, it returns exactly the requests
of the successful prefix plus the failing record's requests, the normalized
forms of the successful prefix, and the error e; the records after the
failing one contribute nothing. -/
theorem C3_appendRecords_partial (env : HttpEnv) (p : Provider) (zone : String)
    (pre post : List RR) (r : RR) (e : ProviderError)
    (hpre : ∀ x ∈ pre, (processRecord env p zone x).2 = .ok ())
    (hr : (processRecord env p zone r).2 = .error e) :
    AppendRecords env p zone (pre ++ r :: post) =
      (batchRequests env p zone pre ++ (processRecord env p zone r).1,
        .done (pre.map normRR) (some e)) := by
  unfold AppendRecords
  rw [appendGo_ok_block env p zone pre hpre (r :: post) [] []]
  simp [appendGo, hr]

/-- C3 (witness): for the concrete 3-record batch whose second update is
answered with status 400, AppendRecords issues the first two update requests
only, returns exactly the first record's normalized form, and reports the
second record's status error; the third record is never attempted. -/
theorem C3_appendRecords_partial_witness :
    AppendRecords envBatch pFlat3 "example.com." [rA, rB, rC] =
      ([updateRequest acc3 "v1", updateRequest acc3 "v2"],
        .done [⟨"TXT", "a", "v1", 0⟩] (some (.badStatus 400))) := by
  have h := C3_appendRecords_partial envBatch pFlat3 "example.com." [rA] [rC] rB
    (.badStatus 400)
    (by
      intro x hx
      rw [List.mem_singleton] at hx
      subst hx
      rfl)
    (by rfl)
  exact h.trans (by rfl)

/-- C4: SetRecords is a direct alias of AppendRecords: identical returned
record list, identical error, and identical sequence of outbound requests on
every input. -/
theorem C4_setRecords_alias (env : HttpEnv) (p : Provider) (zone : String)
    (recs : List RR) :
    SetRecords env p zone recs = AppendRecords env p zone recs := rfl

/-- C5: whenever a table is present and the computed lookup key is not in it,
selectAccount fails with the configuration-not-found error for that key; the
static credential fields of the provider play no role. -/
theorem C5_table_no_fallback (p : Provider) (tbl : List (String × DomainConfig))
    (zone name : String) (hc : p.configs = some tbl)
    (hmiss : lookupConfig tbl (codeLookupKey name zone) = none) :
    selectAccount p zone name = .error (.configNotFound (codeLookupKey name zone)) := by
  simp only [selectAccount, hc, hmiss]

/-- C5 (witness): a provider with a populated table and fully populated
static fields still fails with configuration-not-found on a zone missing
from the table. -/
theorem C5_table_no_fallback_witness :
    selectAccount pStaticAndTable "other.org." "_acme-challenge" =
      .error (.configNotFound "other.org") := by
  have h := C5_table_no_fallback pStaticAndTable tblEx "other.org." "_acme-challenge"
    rfl (by decide)
  have hk : codeLookupKey "_acme-challenge" "other.org." = "other.org" := by decide
  rw [hk] at h
  exact h

/-- C6: with no table, selectAccount validates username, password, subdomain
and server URL in that fixed order; the first empty field determines the
reported error, and when all four are non-empty the account built from
exactly those fields is returned. -/
theorem C6_flat_validation_order (p : Provider) (zone name : String)
    (hc : p.configs = none) :
    (p.username = "" → selectAccount p zone name = .error (.emptyField "Username")) ∧
    (p.username ≠ "" → p.password = "" →
      selectAccount p zone name = .error (.emptyField "Password")) ∧
    (p.username ≠ "" → p.password ≠ "" → p.subdomain = "" →
      selectAccount p zone name = .error (.emptyField "Subdomain")) ∧
    (p.username ≠ "" → p.password ≠ "" → p.subdomain ≠ "" → p.serverURL = "" →
      selectAccount p zone name = .error (.emptyField "ServerURL")) ∧
    (p.username ≠ "" → p.password ≠ "" → p.subdomain ≠ "" → p.serverURL ≠ "" →
      selectAccount p zone name = .ok ⟨p.username, p.password, p.subdomain, p.serverURL⟩) := by
  simp only [selectAccount, hc]
  refine ⟨?_, ?_, ?_, ?_, ?_⟩ <;> intros <;> simp_all

/-- C6 (witness): a flat provider with username "u" and empty password fails
with the password error. -/
theorem C6_flat_validation_order_witness :
    selectAccount pFlatW "example.com." "x" = .error (.emptyField "Password") :=
  (C6_flat_validation_order pFlatW "example.com." "x" rfl).2.1 (by decide) rfl

/-- C7: a non-TXT record after any block of successful records makes
AppendRecords stop with the unsupported-record-type error; for that record no
request is issued (the returned requests are exactly those of the successful
block) and the normalized successful block is returned. -/
theorem C7_nonTXT_rejected (env : HttpEnv) (p : Provider) (zone : String)
    (pre post : List RR) (r : RR)
    (hpre : ∀ x ∈ pre, (processRecord env p zone x).2 = .ok ())
    (hr : r.type ≠ "TXT") :
    AppendRecords env p zone (pre ++ r :: post) =
      (batchRequests env p zone pre, .done (pre.map normRR) (some .unsupportedType)) := by
  have hpr : processRecord env p zone r = ([], .error .unsupportedType) := by
    simp only [processRecord, if_pos hr]
  unfold AppendRecords
  rw [appendGo_ok_block env p zone pre hpre (r :: post) [] []]
  simp [appendGo, hpr]

/-- C7 (witness): a batch consisting of one A record is rejected immediately
with the unsupported-record-type error and no request is issued. -/
theorem C7_nonTXT_rejected_witness :
    AppendRecords envBatch pFlat3 "example.com." [rBad] =
      ([], .done [] (some .unsupportedType)) := by
  have h := C7_nonTXT_rejected envBatch pFlat3 "example.com." [] [] rBad
    (by
      intro x hx
      cases hx)
    (by decide)
  exact h.trans (by rfl)

/-- C8 (counterexample): with the malformed server URL "://auth2.example"
(whose request URL Go's url.Parse rejects), updateTxtValue issues no request
at all and panics, instead of emitting one POST and returning a status or
transport error as the claim states for every credential set. -/
theorem C8_update_request_counterexample :
    updateTxtValue envReject8 accBad8 "abc123" = ([], .panic) := by rfl

/-- C8 (amended): for every credential set whose computed request URL is
accepted by the URL parser, updateTxtValue emits exactly one request - a POST
to serverURL/update with headers X-Api-User (username), X-Api-Key (password)
and Content-Type application/json and the JSON object with fields subdomain
and txt as body - succeeds exactly when the response status is 200, fails
with the status-code error on any other status, and fails with the transport
error on a transport-level failure; when the URL parser rejects the URL the
construction error is dropped and the call panics (see the counterexample). -/
theorem C8_update_request_amended (env : HttpEnv) (acc : Account) (value : String)
    (h : env.parseURLFails (acc.serverURL ++ "/update") = false) :
    (updateTxtValue env acc value).1 = [updateRequest acc value] ∧
    ((updateTxtValue env acc value).2 = .ok () ↔
      env.respond (updateRequest acc value) = some 200) ∧
    (∀ s, env.respond (updateRequest acc value) = some s → s ≠ 200 →
      (updateTxtValue env acc value).2 = .error (.badStatus s)) ∧
    (env.respond (updateRequest acc value) = none →
      (updateTxtValue env acc value).2 = .error .transport) := by
  have hif : updateTxtValue env acc value =
      (match env.respond (updateRequest acc value) with
        | none => ([updateRequest acc value], .error .transport)
        | some status =>
          if status ≠ 200 then ([updateRequest acc value], .error (.badStatus status))
          else ([updateRequest acc value], .ok ())) := by
    unfold updateTxtValue
    rw [h]
    simp
  rw [hif]
  rcases hr : env.respond (updateRequest acc value) with _ | s
  · simp
  · by_cases hs : s = 200
    · subst hs
      simp
    · simp [hs]

/-- C8 (witness): for the specification's worked example - credentials
u / p / sd at https://auth.example and value "abc123" - the emitted request
is a POST to https://auth.example/update with the stated headers and the
body object with subdomain "sd" and txt "abc123", and a 200 answer makes the
call succeed. -/
theorem C8_update_request_witness :
    (updateTxtValue envAccept accW8 "abc123").1 = [updateRequest accW8 "abc123"] ∧
    (updateTxtValue envAccept accW8 "abc123").2 = .ok () ∧
    updateRequest accW8 "abc123" =
      ⟨"POST", "https://auth.example/update",
        [("X-Api-User", "u"), ("X-Api-Key", "p"), ("Content-Type", "application/json")],
        ⟨"sd", "abc123"⟩⟩ := by
  have h := C8_update_request_amended envAccept accW8 "abc123" rfl
  exact ⟨h.1, h.2.1.mpr rfl, by rfl⟩

/-- C9: DeleteRecords always succeeds, issues no request, performs no action
and returns the empty record list with no error, for every input. -/
theorem C9_deleteRecords_noop (env : HttpEnv) (p : Provider) (zone : String)
    (recs : List RR) :
    DeleteRecords env p zone recs = ([], .done [] none) := rfl

/-- C10: GetRecords always fails with the not-supported error, returns no
records and issues no request, for every zone. -/
theorem C10_getRecords_unsupported (env : HttpEnv) (p : Provider) (zone : String) :
    GetRecords env p zone = ([], .done [] (some .notSupported)) := rfl

/-- C1 (witness of the amended claim): for zone "example.com" and name
"_acme-challenge" the computed key is "example.com" and the matching table
entry is returned. -/
theorem C1_lookupKey_amended_witness :
    specLookupKey "_acme-challenge" "example.com" = "example.com" ∧
    selectAccount pEx "example.com" "_acme-challenge" =
      .ok ⟨"u0", "p0", "s0", "https://sv0"⟩ := by
  have h := C1_lookupKey_amended pEx tblEx "_acme-challenge" "example.com" rfl
    (by decide) (by decide) (by decide) (by decide) (by decide) (by decide)
  refine ⟨by decide, ?_⟩
  exact h.2.1 cfgDemo (by decide)
